import Mathlib

/-!
Shallow embedding of the core logic module (`src/logic.py`) of the
drone-operations assignment system: entity records, availability filters,
the assignment recommender, the conflict detector and the urgent
reassignment planner, together with theorems checking the specification's
claims against this embedding.

Records model Python dicts mapping field names to string values; fallible
dict subscripting and date parsing are modelled with `Except String`.
String primitives are re-implemented structurally over `List Char` so that
every definition evaluates by kernel reduction.
-/

namespace DroneOps

/-- A data record: a Python dict from field name to string value, modelled
as an association list whose keys are unique (lookup takes the first
binding). -/
abbrev Record := List (String × String)

/-- Python `d.get(k)`: the value bound to `k`, or `None` when absent. -/
def Record.get (r : Record) (k : String) : Option String :=
  (List.find? (fun kv => kv.1 == k) r).map (fun kv => kv.2)

/-- Python `d.get(k, "")`: the value bound to `k`, defaulting to the empty
string. -/
def Record.getD (r : Record) (k : String) : String :=
  (Record.get r k).getD ""

/-- Python `d[k]`: raises `KeyError` when the key is absent. -/
def Record.getE (r : Record) (k : String) : Except String String :=
  match Record.get r k with
  | some v => Except.ok v
  | none => Except.error ("KeyError: " ++ k)

/-- Python f-string interpolation of an `Optional[str]` value: `None`
renders as the text `"None"`. -/
def pyStr : Option String → String
  | some s => s
  | none => "None"

/-- Python truthiness of an `Optional[str]`: `None` and `""` are falsy,
every other string is truthy. -/
def strTruthy : Option String → Bool
  | some s => s != ""
  | none => false

/-- Python `str.split(sep)` for a one-character separator, on the
character list. Splitting the empty list yields `[[]]`, as in Python. -/
def splitChar (c : Char) : List Char → List (List Char)
  | [] => [[]]
  | x :: xs =>
    let r := splitChar c xs
    if x == c then [] :: r
    else
      match r with
      | h :: t => (x :: h) :: t
      | [] => [[x]]

/-- Python `s.split(sep)` for a one-character separator. -/
def pySplit (s : String) (c : Char) : List String :=
  (splitChar c s.data).map String.mk

/-- Python `str.strip()`: drop leading and trailing whitespace. -/
def pyStrip (s : String) : String :=
  String.mk (((s.data.dropWhile Char.isWhitespace).reverse.dropWhile Char.isWhitespace).reverse)

/-- Python `str.lower()` (ASCII case folding, which covers the data this
system handles). -/
def pyLower (s : String) : String :=
  String.mk (s.data.map Char.toLower)

/-- Python `int(s)`-style digit parsing used for date components: all
characters must be digits and the list must be non-empty. -/
def digitsToNat? (l : List Char) : Option Nat :=
  if l ≠ [] ∧ l.all Char.isDigit then
    some (l.foldl (fun a c => a * 10 + (c.toNat - 48)) 0)
  else
    none

/-- Source `_split_list`: split a comma-separated field, strip
each item, and drop the empty items. -/
def split_list (value : String) : List String :=
  ((pySplit value ',').map pyStrip).filter (fun v => v != "")

/-- Source `_is_empty_assignment`: `None` and, after stripping,
the empty string, the hyphen, the en-dash and the mis-encoded en-dash all
count as "no assignment". -/
def is_empty_assignment : Option String → Bool
  | none => true
  | some value =>
    let cleaned := pyStrip value
    cleaned == "" || cleaned == "-" || cleaned == "–" || cleaned == "â€–"

/-- Source `normalize_text`: `value.lower().strip()`. -/
def normalize_text (value : String) : String :=
  pyStrip (pyLower value)

/-- A calendar date as parsed from a `YYYY-MM-DD` string. -/
structure PyDate where
  year : Nat
  month : Nat
  day : Nat
deriving DecidableEq, Repr

/-- Numeric key inducing the chronological order on parsed dates (months
are at most 12 and days at most 31, so the encoding is order-faithful). -/
def PyDate.key (d : PyDate) : Nat :=
  d.year * 10000 + d.month * 100 + d.day

/-- Comparison `datetime <=` on parsed dates. -/
def PyDate.le (a b : PyDate) : Bool :=
  Nat.ble a.key b.key

/-- Model of `dateutil.parser.parse` restricted to the repository's `DATE_FMT`
(`"%Y-%m-%d"`) date shape actually stored in the data: year, month and day
as digit runs separated by hyphens, with months 1–12 and days 1–31; any
other string raises a parser error (`none` here). -/
def parse_date (s : String) : Option PyDate :=
  match (pySplit (pyStrip s) '-').map (fun p => digitsToNat? p.data) with
  | [some y, some m, some d] =>
    if 1 ≤ m ∧ m ≤ 12 ∧ 1 ≤ d ∧ d ≤ 31 then some ⟨y, m, d⟩ else none
  | _ => none

/-- Source `_date`: parse a date string, raising on failure. -/
def date (value : String) : Except String PyDate :=
  match parse_date value with
  | some d => Except.ok d
  | none => Except.error ("ParserError: " ++ value)

/-- Source `_overlaps`:
`_date(a_start) <= _date(b_end) and _date(b_start) <= _date(a_end)`,
preserving Python's evaluation order and `and` short-circuiting (the
second pair of dates is only parsed when the first comparison holds). -/
def overlaps (a_start a_end b_start b_end : String) : Except String Bool := do
  let x1 ← date a_start
  let x2 ← date b_end
  if PyDate.le x1 x2 then
    let x3 ← date b_start
    let x4 ← date a_end
    return PyDate.le x3 x4
  else
    return false

/-- The loop-body predicate of `filter_pilots`: a pilot passes when it
survives every `continue` in the source loop. -/
def pilot_passes (skill cert location : Option String) (available_only : Bool) (p : Record) : Bool :=
  (!available_only || normalize_text (Record.getD p "status") == "available")
  && (!(strTruthy skill) || ((split_list (Record.getD p "skills")).map pyLower).contains (pyLower (skill.getD "")))
  && (!(strTruthy cert) || ((split_list (Record.getD p "certifications")).map pyLower).contains (pyLower (cert.getD "")))
  && (!(strTruthy location) || normalize_text (Record.getD p "location") == pyLower (location.getD ""))

/-- Source `filter_pilots`. -/
def filter_pilots (pilots : List Record) (skill cert location : Option String) (available_only : Bool) : List Record :=
  pilots.filter (pilot_passes skill cert location available_only)

/-- The loop-body predicate of `filter_drones`. -/
def drone_passes (capability location : Option String) (available_only : Bool) (d : Record) : Bool :=
  (!available_only || normalize_text (Record.getD d "status") == "available")
  && (!(strTruthy capability) || ((split_list (Record.getD d "capabilities")).map pyLower).contains (pyLower (capability.getD "")))
  && (!(strTruthy location) || normalize_text (Record.getD d "location") == pyLower (location.getD ""))

/-- Source `filter_drones`. -/
def filter_drones (drones : List Record) (capability location : Option String) (available_only : Bool) : List Record :=
  drones.filter (drone_passes capability location available_only)

/-- Lookup `SKILL_TO_CAPABILITY.get(required_skill, "RGB")`: the fixed
skill-to-capability map with default `"RGB"` (exact, case-sensitive keys,
as in the source dict). -/
def skill_to_capability (s : String) : String :=
  if s == "Mapping" then "RGB"
  else if s == "Survey" then "RGB"
  else if s == "Inspection" then "RGB"
  else if s == "Thermal" then "Thermal"
  else "RGB"

/-- The result record of the recommender (`AssignmentRecommendation`
dataclass in the source). -/
structure AssignmentRecommendation where
  pilot : Option Record
  drone : Option Record
  issues : List String
deriving DecidableEq, Repr

/-- Pilot-issue message appended by the recommender. -/
def no_pilot_msg : String :=
  "No available pilot meets skill, cert, and location requirements."

/-- Drone-issue message appended by the recommender. -/
def no_drone_msg : String :=
  "No available drone matches capability and location requirements."

/-- Mission lookup in `recommend_assignment`:
`next((m for m in missions if m.get("project_id") == project_id), None)`. -/
def find_mission (missions : List Record) (project_id : String) : Option Record :=
  List.find? (fun m => Record.get m "project_id" == some project_id) missions

/-- One iteration of the eligible-pilot loop of `recommend_assignment`:
`Except.ok true` when the pilot is appended to `eligible_pilots`,
`Except.ok false` when a `continue` fires, and an error when the body
raises (`assigned["start_date"]` / `assigned["end_date"]` subscripting or
date parsing inside `_overlaps`). -/
def pilot_eligible (missions : List Record) (required_skill required_cert location start end_ : String) (p : Record) : Except String Bool :=
  if normalize_text (Record.getD p "status") != "available" then Except.ok false
  else if normalize_text (Record.getD p "location") != normalize_text location then Except.ok false
  else if !(((split_list (Record.getD p "skills")).map pyLower).contains (normalize_text required_skill)) then Except.ok false
  else if !(((split_list (Record.getD p "certifications")).map pyLower).contains (normalize_text required_cert)) then Except.ok false
  else if is_empty_assignment (Record.get p "current_assignment") then Except.ok true
  else
    match List.find? (fun m => Record.get m "project_id" == Record.get p "current_assignment") missions with
    | none => Except.ok true
    | some assigned =>
      match Record.getE assigned "start_date" with
      | Except.error e => Except.error e
      | Except.ok s2 =>
        match Record.getE assigned "end_date" with
        | Except.error e => Except.error e
        | Except.ok e2 =>
          (overlaps start end_ s2 e2).map (fun ov => !ov)

/-- The eligible-pilot loop of `recommend_assignment`, in input order,
propagating the first raised error. -/
def eligible_pilots_loop (missions : List Record) (required_skill required_cert location start end_ : String) : List Record → Except String (List Record)
  | [] => Except.ok []
  | p :: rest =>
    match pilot_eligible missions required_skill required_cert location start end_ p with
    | Except.error e => Except.error e
    | Except.ok b =>
      match eligible_pilots_loop missions required_skill required_cert location start end_ rest with
      | Except.error e => Except.error e
      | Except.ok l => Except.ok (if b then p :: l else l)

/-- Source `recommend_assignment`. -/
def recommend_assignment (project_id : String) (pilots drones missions : List Record) : Except String AssignmentRecommendation :=
  match find_mission missions project_id with
  | none => Except.ok ⟨none, none, ["Unknown project: " ++ project_id]⟩
  | some mission =>
    match eligible_pilots_loop missions (Record.getD mission "required_skills") (Record.getD mission "required_certs") (Record.getD mission "location") (Record.getD mission "start_date") (Record.getD mission "end_date") pilots with
    | Except.error e => Except.error e
    | Except.ok eligible =>
      let required_capability := skill_to_capability (Record.getD mission "required_skills")
      let eligible_drones := filter_drones drones (some required_capability) (some (Record.getD mission "location")) true
      let issues :=
        (if eligible.isEmpty then [no_pilot_msg] else [])
        ++ (if eligible_drones.isEmpty then [no_drone_msg] else [])
      Except.ok ⟨eligible.head?, eligible_drones.head?, issues⟩

/-- Building `mission_map = {m["project_id"]: m for m in missions}`:
subscripting raises `KeyError` on a mission without `project_id`; the
insertion order is kept so that later duplicates can overwrite earlier
ones on lookup. -/
def mission_map_entries : List Record → Except String (List (String × Record))
  | [] => Except.ok []
  | m :: rest =>
    match Record.getE m "project_id" with
    | Except.error e => Except.error e
    | Except.ok k =>
      match mission_map_entries rest with
      | Except.error e => Except.error e
      | Except.ok es => Except.ok ((k, m) :: es)

/-- Python dict lookup on the recorded insertions: the last insertion for
a key wins; looking up `None` finds nothing (keys are strings). -/
def map_get (entries : List (String × Record)) : Option String → Option Record
  | none => none
  | some k => (List.find? (fun e => e.1 == k) entries.reverse).map (fun e => e.2)

/-- The pilot-integrity loop body of `detect_conflicts`: the conflict
lines contributed by one pilot. -/
def pilot_checks (entries : List (String × Record)) (p : Record) : List String :=
  let assignment := Record.get p "current_assignment"
  if is_empty_assignment assignment then []
  else
    match map_get entries assignment with
    | none => ["Pilot " ++ pyStr (Record.get p "name") ++ " assigned to unknown mission " ++ pyStr assignment ++ "."]
    | some mission =>
      (if !(((split_list (Record.getD p "skills")).map pyLower).contains (normalize_text (Record.getD mission "required_skills"))) then
        ["Pilot " ++ pyStr (Record.get p "name") ++ " lacks required skill for " ++ pyStr assignment ++ "."] else [])
      ++ (if !(((split_list (Record.getD p "certifications")).map pyLower).contains (normalize_text (Record.getD mission "required_certs"))) then
        ["Pilot " ++ pyStr (Record.get p "name") ++ " lacks required certs for " ++ pyStr assignment ++ "."] else [])
      ++ (if normalize_text (Record.getD p "location") != normalize_text (Record.getD mission "location") then
        ["Pilot " ++ pyStr (Record.get p "name") ++ " location mismatch for " ++ pyStr assignment ++ "."] else [])

/-- The drone-integrity loop body of `detect_conflicts`. -/
def drone_checks (entries : List (String × Record)) (d : Record) : List String :=
  let assignment := Record.get d "current_assignment"
  if is_empty_assignment assignment then []
  else
    match map_get entries assignment with
    | none => ["Drone " ++ pyStr (Record.get d "drone_id") ++ " assigned to unknown mission " ++ pyStr assignment ++ "."]
    | some mission =>
      (if normalize_text (Record.getD d "status") == "maintenance" then
        ["Drone " ++ pyStr (Record.get d "drone_id") ++ " is in maintenance but assigned to " ++ pyStr assignment ++ "."] else [])
      ++ (if normalize_text (Record.getD d "location") != normalize_text (Record.getD mission "location") then
        ["Drone " ++ pyStr (Record.get d "drone_id") ++ " location mismatch for " ++ pyStr assignment ++ "."] else [])
      ++ (if !(((split_list (Record.getD d "capabilities")).map pyLower).contains (pyLower (skill_to_capability (Record.getD mission "required_skills")))) then
        ["Drone " ++ pyStr (Record.get d "drone_id") ++ " lacks capability for " ++ pyStr assignment ++ "."] else [])

/-- The inner mission scan of the overlap phase: look for the first other
mission whose dates overlap those of `m1`, stopping at the first overlap
(the `break` in the source), emitting at most one conflict line. -/
def overlap_scan (assignment : Option String) (pname : Option String) (m1 : Record) : List Record → Except String (List String)
  | [] => Except.ok []
  | m2 :: rest =>
    match Record.getE m2 "project_id" with
    | Except.error e => Except.error e
    | Except.ok k2 =>
      match Record.getE m1 "project_id" with
      | Except.error e => Except.error e
      | Except.ok k1 =>
        if k2 == k1 then overlap_scan assignment pname m1 rest
        else
          match Record.getE m1 "start_date" with
          | Except.error e => Except.error e
          | Except.ok s1 =>
            match Record.getE m1 "end_date" with
            | Except.error e => Except.error e
            | Except.ok e1 =>
              match Record.getE m2 "start_date" with
              | Except.error e => Except.error e
              | Except.ok s2 =>
                match Record.getE m2 "end_date" with
                | Except.error e => Except.error e
                | Except.ok e2 =>
                  match overlaps s1 e1 s2 e2 with
                  | Except.error e => Except.error e
                  | Except.ok ov =>
                    if ov then
                      Except.ok (if assignment == some k1 then
                        ["Pilot " ++ pyStr pname ++ " assigned to " ++ pyStr assignment ++ " overlaps with " ++ k2 ++ "."]
                      else [])
                    else overlap_scan assignment pname m1 rest

/-- The overlap loop body of `detect_conflicts` for one pilot. -/
def pilot_overlap (entries : List (String × Record)) (missions : List Record) (p : Record) : Except String (List String) :=
  let assignment := Record.get p "current_assignment"
  if is_empty_assignment assignment then Except.ok []
  else
    match map_get entries assignment with
    | none => Except.ok []
    | some m1 => overlap_scan assignment (Record.get p "name") m1 missions

/-- Map `drone_by_assignment = {d.get("current_assignment"): d for d in drones
if d.get("current_assignment")}`: insertions keyed by the truthy
assignment string, later insertions overwriting earlier ones. -/
def drone_by_assignment (drones : List Record) : List (String × Record) :=
  (drones.filter (fun d => strTruthy (Record.get d "current_assignment"))).map
    (fun d => ((Record.get d "current_assignment").getD "", d))

/-- The colocation loop body of `detect_conflicts` for one pilot. -/
def coloc_check (dmap : List (String × Record)) (p : Record) : List String :=
  let assignment := Record.get p "current_assignment"
  if is_empty_assignment assignment then []
  else
    match map_get dmap assignment with
    | none => []
    | some d =>
      if normalize_text (Record.getD p "location") != normalize_text (Record.getD d "location") then
        ["Pilot " ++ pyStr (Record.get p "name") ++ " and drone " ++ pyStr (Record.get d "drone_id") ++ " are in different locations for " ++ pyStr assignment ++ "."]
      else []

/-- The pilot-integrity loop of `detect_conflicts`, threading the
accumulated conflict list exactly as the source appends to it. -/
def pilot_conflicts_loop (entries : List (String × Record)) : List Record → List String → List String
  | [], acc => acc
  | p :: rest, acc => pilot_conflicts_loop entries rest (acc ++ pilot_checks entries p)

/-- The drone-integrity loop of `detect_conflicts`. -/
def drone_conflicts_loop (entries : List (String × Record)) : List Record → List String → List String
  | [], acc => acc
  | d :: rest, acc => drone_conflicts_loop entries rest (acc ++ drone_checks entries d)

/-- The overlap loop of `detect_conflicts`. -/
def overlap_conflicts_loop (entries : List (String × Record)) (missions : List Record) : List Record → List String → Except String (List String)
  | [], acc => Except.ok acc
  | p :: rest, acc =>
    match pilot_overlap entries missions p with
    | Except.error e => Except.error e
    | Except.ok c => overlap_conflicts_loop entries missions rest (acc ++ c)

/-- The colocation loop of `detect_conflicts`. -/
def coloc_conflicts_loop (dmap : List (String × Record)) : List Record → List String → List String
  | [], acc => acc
  | p :: rest, acc => coloc_conflicts_loop dmap rest (acc ++ coloc_check dmap p)

/-- Source `detect_conflicts`: build the mission map, then run
the four phases in order over one shared accumulator. -/
def detect_conflicts (pilots drones missions : List Record) : Except String (List String) :=
  match mission_map_entries missions with
  | Except.error e => Except.error e
  | Except.ok entries =>
    let acc1 := pilot_conflicts_loop entries pilots []
    let acc2 := drone_conflicts_loop entries drones acc1
    match overlap_conflicts_loop entries missions pilots acc2 with
    | Except.error e => Except.error e
    | Except.ok acc3 => Except.ok (coloc_conflicts_loop (drone_by_assignment drones) pilots acc3)

/-- All conflict lines of the pilot-integrity phase, in pilot listing
order. -/
def pilot_phase (entries : List (String × Record)) (pilots : List Record) : List String :=
  (pilots.map (pilot_checks entries)).flatten

/-- All conflict lines of the drone-integrity phase, in drone listing
order. -/
def drone_phase (entries : List (String × Record)) (drones : List Record) : List String :=
  (drones.map (drone_checks entries)).flatten

/-- All conflict lines of the overlap phase, in pilot listing order. -/
def overlap_phase (entries : List (String × Record)) (missions : List Record) : List Record → Except String (List String)
  | [] => Except.ok []
  | p :: rest =>
    match pilot_overlap entries missions p with
    | Except.error e => Except.error e
    | Except.ok c =>
      match overlap_phase entries missions rest with
      | Except.error e => Except.error e
      | Except.ok r => Except.ok (c ++ r)

/-- All conflict lines of the colocation phase, in pilot listing order. -/
def coloc_phase (dmap : List (String × Record)) (pilots : List Record) : List String :=
  (pilots.map (coloc_check dmap)).flatten

/-- Informational message of the planner when no urgent or high-priority
mission exists. -/
def no_urgent_msg : String :=
  "No urgent or high-priority missions found."

/-- The reassignment proposal string of the planner. -/
def reassign_msg (candidate : Record) (project_id : String) : String :=
  "Consider reassigning pilot " ++ pyStr (Record.get candidate "name")
    ++ " from " ++ pyStr (Record.get candidate "current_assignment")
    ++ " to urgent mission " ++ project_id ++ "."

/-- The planner's message when no reassignable pilot exists for an urgent
mission. -/
def no_reassign_msg (project_id : String) : String :=
  "No reassignable pilots found for urgent mission " ++ project_id ++ "."

/-- The urgent/high-priority missions, in listing order. -/
def urgent_missions (missions : List Record) : List Record :=
  missions.filter (fun m =>
    normalize_text (Record.getD m "priority") == "urgent"
    || normalize_text (Record.getD m "priority") == "high")

/-- The standard/low-priority missions, in listing order. -/
def lower_missions (missions : List Record) : List Record :=
  missions.filter (fun m =>
    normalize_text (Record.getD m "priority") == "standard"
    || normalize_text (Record.getD m "priority") == "low")

/-- The inner pilot scan of the planner's candidate search: the first
pilot whose `current_assignment` equals the lower-priority mission's
project id. `lm["project_id"]` is subscripted inside the pilot loop, so
the `KeyError` only fires when at least one pilot is scanned. -/
def scan_pilots (lm : Record) : List Record → Except String (Option Record)
  | [] => Except.ok none
  | p :: rest =>
    match Record.getE lm "project_id" with
    | Except.error e => Except.error e
    | Except.ok k =>
      if Record.get p "current_assignment" == some k then Except.ok (some p)
      else scan_pilots lm rest

/-- The planner's candidate search: scan lower-priority missions in
listing order (mission-major) and stop at the first assigned pilot. -/
def find_candidate (pilots : List Record) : List Record → Except String (Option Record)
  | [] => Except.ok none
  | lm :: rest =>
    match scan_pilots lm pilots with
    | Except.error e => Except.error e
    | Except.ok (some p) => Except.ok (some p)
    | Except.ok none => find_candidate pilots rest

/-- Python truthiness of an `Optional[dict]`: `None` and the empty dict
are falsy. -/
def truthy_rec : Option Record → Bool
  | none => false
  | some r => !r.isEmpty

/-- One iteration of the planner's urgent-mission loop: the (possibly
empty) list of recommendation strings contributed by one urgent
mission. -/
def plan_step (missions pilots drones : List Record) (m : Record) : Except String (List String) :=
  match Record.getE m "project_id" with
  | Except.error e => Except.error e
  | Except.ok pid =>
    match recommend_assignment pid pilots drones missions with
    | Except.error e => Except.error e
    | Except.ok r =>
      if truthy_rec r.pilot && truthy_rec r.drone && r.issues.isEmpty then Except.ok []
      else
        match find_candidate pilots (lower_missions missions) with
        | Except.error e => Except.error e
        | Except.ok (some candidate) => Except.ok [reassign_msg candidate pid]
        | Except.ok none => Except.ok [no_reassign_msg pid]

/-- The urgent-mission loop of the planner, threading the accumulated
recommendation list. -/
def plan_loop (missions pilots drones : List Record) : List Record → List String → Except String (List String)
  | [], acc => Except.ok acc
  | m :: rest, acc =>
    match plan_step missions pilots drones m with
    | Except.error e => Except.error e
    | Except.ok c => plan_loop missions pilots drones rest (acc ++ c)

/-- Source `urgent_reassignment_plan`. -/
def urgent_reassignment_plan (missions pilots drones : List Record) : Except String (List String) :=
  let urgent := urgent_missions missions
  if urgent.isEmpty then Except.ok [no_urgent_msg]
  else plan_loop missions pilots drones urgent []

/-- The shapes a planner output line can take: the no-urgent-missions
notice, a pilot reassignment proposal for some pilot of the input list, or
the no-reassignable-pilot notice; no shape proposes moving a drone. -/
def planner_line_shape (pilots : List Record) (s : String) : Prop :=
  s = no_urgent_msg
  ∨ (∃ candidate, candidate ∈ pilots ∧ ∃ pid, s = reassign_msg candidate pid)
  ∨ (∃ pid, s = no_reassign_msg pid)

/-- Fixture: an urgent mission in Mumbai requiring Mapping/DGCA. -/
def mission1 : Record :=
  [("project_id", "PRJ001"), ("client", "Acme"), ("location", "Mumbai"),
   ("required_skills", "Mapping"), ("required_certs", "DGCA"),
   ("start_date", "2024-01-01"), ("end_date", "2024-01-10"), ("priority", "Urgent")]

/-- Fixture: a standard-priority mission in Pune. -/
def mission2 : Record :=
  [("project_id", "PRJ002"), ("client", "Beta"), ("location", "Pune"),
   ("required_skills", "Survey"), ("required_certs", "DGCA"),
   ("start_date", "2024-02-01"), ("end_date", "2024-02-05"), ("priority", "Standard")]

/-- Fixture: a mission record lacking its date fields. -/
def mission2nd : Record :=
  [("project_id", "PRJ002"), ("priority", "Standard"), ("location", "Pune")]

/-- Fixture: an available, qualified pilot with a hyphen assignment. -/
def pilotA : Record :=
  [("pilot_id", "P1"), ("name", "Asha"), ("status", "Available"), ("location", "Mumbai"),
   ("skills", "Mapping, Thermal"), ("certifications", "DGCA"), ("current_assignment", "-")]

/-- Fixture: a second available, qualified pilot. -/
def pilotB : Record :=
  [("pilot_id", "P2"), ("name", "Ben"), ("status", "Available"), ("location", "Mumbai"),
   ("skills", "Mapping"), ("certifications", "DGCA"), ("current_assignment", "")]

/-- Fixture: a pilot currently assigned to the standard mission. -/
def pilotC : Record :=
  [("pilot_id", "P3"), ("name", "Cam"), ("status", "Assigned"), ("location", "Pune"),
   ("skills", "Survey"), ("certifications", "DGCA"), ("current_assignment", "PRJ002")]

/-- Fixture: an available RGB drone in Mumbai. -/
def droneA : Record :=
  [("drone_id", "D1"), ("model", "M3"), ("capabilities", "RGB, Thermal"),
   ("status", "Available"), ("location", "Mumbai"), ("current_assignment", "-")]

/-- C3 (code bug): the core operations do NOT treat every missing field as
the empty string: `detect_conflicts` subscripts mission records
(`m["project_id"]`, `m1["start_date"]`, …), so a mission lacking
`project_id` makes the mission-map comprehension raise `KeyError`, and a
referenced mission lacking `start_date` makes the overlap phase raise
`KeyError`, instead of returning an ordinary value. -/
theorem detect_conflicts_keyerror_on_missing_fields :
    detect_conflicts [] [] [[]] = Except.error "KeyError: project_id"
    ∧ detect_conflicts [pilotC] [] [mission1, mission2nd] = Except.error "KeyError: start_date" := by
  exact ⟨rfl, rfl⟩

/-- C4: for all parseable date strings, `_overlaps` holds iff
`startA ≤ endB` and `startB ≤ endA`, both endpoints inclusive; in
particular 2024-01-01..2024-01-10 overlaps 2024-01-05..2024-01-15, and
2024-01-01..2024-01-10 does not overlap 2024-01-11..2024-01-20. -/
theorem overlaps_inclusive_bounds (a_start a_end b_start b_end : String)
    (sa ea sb eb : PyDate)
    (h1 : parse_date a_start = some sa) (h2 : parse_date a_end = some ea)
    (h3 : parse_date b_start = some sb) (h4 : parse_date b_end = some eb) :
    (overlaps a_start a_end b_start b_end = Except.ok true
      ↔ (PyDate.key sa ≤ PyDate.key eb ∧ PyDate.key sb ≤ PyDate.key ea))
    ∧ overlaps "2024-01-01" "2024-01-10" "2024-01-05" "2024-01-15" = Except.ok true
    ∧ overlaps "2024-01-01" "2024-01-10" "2024-01-11" "2024-01-20" = Except.ok false := by
  refine ⟨?_, rfl, rfl⟩
  simp only [overlaps, date, h1, h2, h3, h4, bind, Except.bind, pure, Except.pure]
  cases hc : PyDate.le sa eb with
  | false =>
    simp only [Bool.false_eq_true, if_false]
    constructor
    · intro h
      cases h
    · intro h
      have : PyDate.le sa eb = true := by
        simp only [PyDate.le, Nat.ble_eq]
        exact h.1
      rw [hc] at this
      cases this
  | true =>
    simp only [if_true]
    constructor
    · intro h
      have h2' : PyDate.le sb ea = true := by
        cases hd : PyDate.le sb ea with
        | true => rfl
        | false =>
          rw [hd] at h
          cases h
      constructor
      · simpa only [PyDate.le, Nat.ble_eq] using hc
      · simpa only [PyDate.le, Nat.ble_eq] using h2'
    · intro h
      have : PyDate.le sb ea = true := by
        simp only [PyDate.le, Nat.ble_eq]
        exact h.2
      rw [this]

/-- Witness for C4 at concrete inputs: the two example ranges of the
claim, with all hypotheses discharged by evaluation. -/
theorem overlaps_inclusive_bounds_witness :
    (overlaps "2024-01-01" "2024-01-10" "2024-01-05" "2024-01-15" = Except.ok true
      ↔ (PyDate.key ⟨2024, 1, 1⟩ ≤ PyDate.key ⟨2024, 1, 15⟩
          ∧ PyDate.key ⟨2024, 1, 5⟩ ≤ PyDate.key ⟨2024, 1, 10⟩))
    ∧ overlaps "2024-01-01" "2024-01-10" "2024-01-05" "2024-01-15" = Except.ok true
    ∧ overlaps "2024-01-01" "2024-01-10" "2024-01-11" "2024-01-20" = Except.ok false :=
  overlaps_inclusive_bounds "2024-01-01" "2024-01-10" "2024-01-05" "2024-01-15"
    ⟨2024, 1, 1⟩ ⟨2024, 1, 10⟩ ⟨2024, 1, 5⟩ ⟨2024, 1, 15⟩ rfl rfl rfl rfl

/-- C6: when no mission carries the requested project id, the recommender
returns no pilot, no drone, and exactly the single issue
`"Unknown project: <id>"`. -/
theorem recommend_unknown_project_issue (project_id : String) (pilots drones missions : List Record)
    (h : find_mission missions project_id = none) :
    recommend_assignment project_id pilots drones missions
      = Except.ok ⟨none, none, ["Unknown project: " ++ project_id]⟩ := by
  unfold recommend_assignment
  rw [h]

/-- Witness for C6: recommending for `PRJ999` when no such mission exists
yields exactly the issue `["Unknown project: PRJ999"]` and no
pilot/drone. -/
theorem recommend_unknown_project_issue_witness :
    recommend_assignment "PRJ999" [pilotA] [droneA] [mission1]
      = Except.ok ⟨none, none, ["Unknown project: PRJ999"]⟩ :=
  recommend_unknown_project_issue "PRJ999" [pilotA] [droneA] [mission1] rfl

/-- A pilot passing the filter with `available_only = true` has a status
that normalizes to `"available"`. -/
theorem pilot_passes_available {skill cert location : Option String} {p : Record}
    (h : pilot_passes skill cert location true p = true) :
    normalize_text (Record.getD p "status") = "available" := by
  simp only [pilot_passes, Bool.not_true, Bool.false_or, Bool.and_eq_true, beq_iff_eq] at h
  exact h.1.1.1

/-- A drone passing the filter with `available_only = true` has a status
that normalizes to `"available"`. -/
theorem drone_passes_available {capability location : Option String} {d : Record}
    (h : drone_passes capability location true d = true) :
    normalize_text (Record.getD d "status") = "available" := by
  simp only [drone_passes, Bool.not_true, Bool.false_or, Bool.and_eq_true, beq_iff_eq] at h
  exact h.1.1

/-- C7: with `availableOnly = true`, `filter_pilots` and `filter_drones`
return no entity whose status differs (case-insensitively, after
stripping) from "Available"; each result is the order-preserving
subsequence of its input consisting of exactly the entities satisfying
every provided predicate, and is the empty list (not an error) when
nothing matches. -/
theorem filter_available_only_order (pilots drones : List Record)
    (skill cert location capability dlocation : Option String) :
    (∀ p ∈ filter_pilots pilots skill cert location true,
        normalize_text (Record.getD p "status") = "available")
    ∧ (∀ d ∈ filter_drones drones capability dlocation true,
        normalize_text (Record.getD d "status") = "available")
    ∧ (filter_pilots pilots skill cert location true).Sublist pilots
    ∧ (filter_drones drones capability dlocation true).Sublist drones
    ∧ (∀ p, p ∈ filter_pilots pilots skill cert location true
        ↔ p ∈ pilots ∧ pilot_passes skill cert location true p = true)
    ∧ (∀ d, d ∈ filter_drones drones capability dlocation true
        ↔ d ∈ drones ∧ drone_passes capability dlocation true d = true)
    ∧ ((∀ p ∈ pilots, pilot_passes skill cert location true p = false)
        → filter_pilots pilots skill cert location true = [])
    ∧ ((∀ d ∈ drones, drone_passes capability dlocation true d = false)
        → filter_drones drones capability dlocation true = []) := by
  refine ⟨?_, ?_, List.filter_sublist pilots, List.filter_sublist drones, ?_, ?_, ?_, ?_⟩
  · intro p hp
    exact pilot_passes_available (List.of_mem_filter hp)
  · intro d hd
    exact drone_passes_available (List.of_mem_filter hd)
  · intro p
    exact List.mem_filter
  · intro d
    exact List.mem_filter
  · intro h
    unfold filter_pilots
    rw [List.filter_eq_nil_iff]
    intro a ha
    simp [h a ha]
  · intro h
    unfold filter_drones
    rw [List.filter_eq_nil_iff]
    intro a ha
    simp [h a ha]

/-- Witness for C7: concrete availability filtering — the available pilot
fixture is returned (and its status normalizes to "available"), and a
mismatching query returns the empty list. -/
theorem filter_available_only_order_witness :
    normalize_text (Record.getD pilotA "status") = "available"
    ∧ filter_pilots [pilotA] (some "Welding") none none true = [] :=
  ⟨(filter_available_only_order [pilotA] [] none none none none none).1 pilotA (by decide),
   (filter_available_only_order [pilotA] [] (some "Welding") none none none none).2.2.2.2.2.2.1
     (by decide)⟩

/-- The pilot-integrity loop appends the pilot phase to its
accumulator. -/
theorem pilot_conflicts_loop_eq (entries : List (String × Record)) (l : List Record) (acc : List String) :
    pilot_conflicts_loop entries l acc = acc ++ pilot_phase entries l := by
  induction l generalizing acc with
  | nil => simp [pilot_conflicts_loop, pilot_phase]
  | cons p rest ih =>
    simp [pilot_conflicts_loop, pilot_phase, ih, List.append_assoc]

/-- The drone-integrity loop appends the drone phase to its
accumulator. -/
theorem drone_conflicts_loop_eq (entries : List (String × Record)) (l : List Record) (acc : List String) :
    drone_conflicts_loop entries l acc = acc ++ drone_phase entries l := by
  induction l generalizing acc with
  | nil => simp [drone_conflicts_loop, drone_phase]
  | cons d rest ih =>
    simp [drone_conflicts_loop, drone_phase, ih, List.append_assoc]

/-- The colocation loop appends the colocation phase to its
accumulator. -/
theorem coloc_conflicts_loop_eq (dmap : List (String × Record)) (l : List Record) (acc : List String) :
    coloc_conflicts_loop dmap l acc = acc ++ coloc_phase dmap l := by
  induction l generalizing acc with
  | nil => simp [coloc_conflicts_loop, coloc_phase]
  | cons p rest ih =>
    simp [coloc_conflicts_loop, coloc_phase, ih, List.append_assoc]

/-- The overlap loop appends the overlap phase to its accumulator,
propagating its first error. -/
theorem overlap_conflicts_loop_eq (entries : List (String × Record)) (missions : List Record) (l : List Record) (acc : List String) :
    overlap_conflicts_loop entries missions l acc
      = (match overlap_phase entries missions l with
         | Except.error e => Except.error e
         | Except.ok r => Except.ok (acc ++ r)) := by
  induction l generalizing acc with
  | nil => simp [overlap_conflicts_loop, overlap_phase]
  | cons p rest ih =>
    simp only [overlap_conflicts_loop, overlap_phase]
    cases hp : pilot_overlap entries missions p with
    | error e => rfl
    | ok c =>
      dsimp only
      rw [ih]
      cases hr : overlap_phase entries missions rest with
      | error e => rfl
      | ok r => simp [List.append_assoc]

/-- C5: `detect_conflicts` is a pure function of its inputs — the
embedding takes its collections by value and running it twice on the same
input trivially yields the same output — and its output is the
concatenation of the four phases in the fixed order pilot-integrity,
drone-integrity, overlap, colocation, each phase following entity listing
order (each phase maps its per-entity check over the entity list). -/
theorem detect_conflicts_pure_and_phase_order (pilots drones missions : List Record) :
    detect_conflicts pilots drones missions = detect_conflicts pilots drones missions
    ∧ detect_conflicts pilots drones missions
      = (match mission_map_entries missions with
         | Except.error e => Except.error e
         | Except.ok entries =>
           match overlap_phase entries missions pilots with
           | Except.error e => Except.error e
           | Except.ok ov =>
             Except.ok (pilot_phase entries pilots ++ drone_phase entries drones
               ++ ov ++ coloc_phase (drone_by_assignment drones) pilots)) := by
  refine ⟨rfl, ?_⟩
  unfold detect_conflicts
  cases hm : mission_map_entries missions with
  | error e => rfl
  | ok entries =>
    simp only
    rw [pilot_conflicts_loop_eq, drone_conflicts_loop_eq, overlap_conflicts_loop_eq]
    cases ho : overlap_phase entries missions pilots with
    | error e => rfl
    | ok ov =>
      simp [coloc_conflicts_loop_eq, List.append_assoc]

/-- Boolean form of the eligible-pilot test, for stating the first-match
selection policy: true exactly when the loop body accepts the pilot. -/
def elig_b (missions : List Record) (rs rc loc st en : String) (p : Record) : Bool :=
  match pilot_eligible missions rs rc loc st en p with
  | Except.ok true => true
  | _ => false

/-- Relation between the Boolean eligibility test and the loop body. -/
theorem elig_b_eq_true_iff (missions : List Record) (rs rc loc st en : String) (p : Record) :
    elig_b missions rs rc loc st en p = true
      ↔ pilot_eligible missions rs rc loc st en p = Except.ok true := by
  unfold elig_b
  cases h : pilot_eligible missions rs rc loc st en p with
  | error e => simp
  | ok b => cases b <;> simp

/-- The eligibility condition exactly as the spec words it (claim C1):
available status, matching location (case-insensitive), mission skill in
the pilot's skill set, mission cert in the pilot's cert set, and no
non-empty current assignment referencing an existing mission whose date
range overlaps the candidate's. -/
def pilot_eligible_spec (missions : List Record) (rs rc loc st en : String) (p : Record) : Prop :=
  normalize_text (Record.getD p "status") = "available"
  ∧ normalize_text (Record.getD p "location") = normalize_text loc
  ∧ normalize_text rs ∈ (split_list (Record.getD p "skills")).map pyLower
  ∧ normalize_text rc ∈ (split_list (Record.getD p "certifications")).map pyLower
  ∧ (is_empty_assignment (Record.get p "current_assignment") = true
    ∨ List.find? (fun m => Record.get m "project_id" == Record.get p "current_assignment") missions = none
    ∨ ∃ assigned s2 e2,
        List.find? (fun m => Record.get m "project_id" == Record.get p "current_assignment") missions = some assigned
        ∧ Record.get assigned "start_date" = some s2
        ∧ Record.get assigned "end_date" = some e2
        ∧ overlaps st en s2 e2 = Except.ok false)

/-- The loop body accepts a pilot exactly when the spec condition holds. -/
theorem pilot_eligible_ok_true_iff (missions : List Record) (rs rc loc st en : String) (p : Record) :
    pilot_eligible missions rs rc loc st en p = Except.ok true
      ↔ pilot_eligible_spec missions rs rc loc st en p := by
  unfold pilot_eligible pilot_eligible_spec
  by_cases c1 : normalize_text (Record.getD p "status") = "available"
  case neg => simp [bne, c1]
  by_cases c2 : normalize_text (Record.getD p "location") = normalize_text loc
  case neg => simp [bne, c1, c2]
  by_cases c3 : normalize_text rs ∈ (split_list (Record.getD p "skills")).map pyLower
  case neg => simp [bne, c1, c2, c3, List.elem_iff]
  by_cases c4 : normalize_text rc ∈ (split_list (Record.getD p "certifications")).map pyLower
  case neg => simp [bne, c1, c2, c3, c4, List.elem_iff]
  have h1 : (normalize_text (Record.getD p "status") != "available") = false := by simp [bne, c1]
  have h2 : (normalize_text (Record.getD p "location") != normalize_text loc) = false := by simp [bne, c2]
  have h3 : ((split_list (Record.getD p "skills")).map pyLower).contains (normalize_text rs) = true := List.elem_iff.mpr c3
  have h4 : ((split_list (Record.getD p "certifications")).map pyLower).contains (normalize_text rc) = true := List.elem_iff.mpr c4
  simp only [h1, h2, h3, h4, Bool.not_true, Bool.not_false, Bool.false_eq_true, if_false, if_true]
  simp only [c1, c2, c3, c4, true_and]
  cases hie : is_empty_assignment (Record.get p "current_assignment") with
  | true => simp
  | false =>
    simp only [Bool.false_eq_true, if_false, false_or]
    cases hf : List.find? (fun m => Record.get m "project_id" == Record.get p "current_assignment") missions with
    | none => simp
    | some assigned =>
      dsimp only
      unfold Record.getE
      cases hsd : Record.get assigned "start_date" with
      | none =>
        dsimp only
        constructor
        · intro h
          simp at h
        · rintro (hfa | ⟨a2, s2x, e2x, hfa, hs2, he2, hovx⟩)
          · simp at hfa
          · cases hfa
            rw [hsd] at hs2
            cases hs2
      | some s2 =>
        dsimp only
        cases hed : Record.get assigned "end_date" with
        | none =>
          dsimp only
          constructor
          · intro h
            simp at h
          · rintro (hfa | ⟨a2, s2x, e2x, hfa, hs2, he2, hovx⟩)
            · simp at hfa
            · cases hfa
              rw [hed] at he2
              cases he2
        | some e2 =>
          dsimp only
          cases hov : overlaps st en s2 e2 with
          | error e =>
            constructor
            · intro h
              simp [Except.map] at h
            · rintro (hfa | ⟨a2, s2x, e2x, hfa, hs2, he2, hovx⟩)
              · simp at hfa
              · cases hfa
                rw [hsd] at hs2
                cases hs2
                rw [hed] at he2
                cases he2
                rw [hov] at hovx
                cases hovx
          | ok ov =>
            cases ov with
            | false =>
              constructor
              · intro _
                right
                exact ⟨assigned, s2, e2, rfl, hsd, hed, hov⟩
              · intro _
                simp [Except.map]
            | true =>
              constructor
              · intro h
                simp [Except.map] at h
              · rintro (hfa | ⟨a2, s2x, e2x, hfa, hs2, he2, hovx⟩)
                · simp at hfa
                · cases hfa
                  rw [hsd] at hs2
                  cases hs2
                  rw [hed] at he2
                  cases he2
                  rw [hov] at hovx
                  cases hovx

/-- A successful run of the eligible-pilot loop returns exactly the
filter of the Boolean eligibility test over the input pilots, in input
order. -/
theorem eligible_loop_ok_filter (missions : List Record) (rs rc loc st en : String) :
    ∀ (ps l : List Record),
      eligible_pilots_loop missions rs rc loc st en ps = Except.ok l →
      l = ps.filter (elig_b missions rs rc loc st en) := by
  intro ps
  induction ps with
  | nil =>
    intro l h
    simp only [eligible_pilots_loop] at h
    cases h
    rfl
  | cons p rest ih =>
    intro l h
    simp only [eligible_pilots_loop] at h
    cases h1 : pilot_eligible missions rs rc loc st en p with
    | error e =>
      rw [h1] at h
      cases h
    | ok b =>
      rw [h1] at h
      cases h2 : eligible_pilots_loop missions rs rc loc st en rest with
      | error e =>
        rw [h2] at h
        cases h
      | ok l2 =>
        rw [h2] at h
        dsimp only at h
        cases h
        have hb : elig_b missions rs rc loc st en p = b := by
          unfold elig_b
          rw [h1]
          cases b <;> rfl
        rw [List.filter_cons, hb, ih l2 h2]

/-- A successful run of the eligible-pilot loop: membership in the result
is membership in the input plus acceptance by the loop body. -/
theorem eligible_loop_ok_mem (missions : List Record) (rs rc loc st en : String)
    (ps l : List Record) (h : eligible_pilots_loop missions rs rc loc st en ps = Except.ok l) :
    ∀ p, p ∈ l ↔ p ∈ ps ∧ pilot_eligible_spec missions rs rc loc st en p := by
  intro p
  rw [eligible_loop_ok_filter missions rs rc loc st en ps l h]
  rw [List.mem_filter]
  rw [elig_b_eq_true_iff, pilot_eligible_ok_true_iff]

/-- Successful recommendation with a found mission, inverted: the result
is built from the eligible-pilot list and the drone filter. -/
theorem recommend_ok_inv (project_id : String) (pilots drones missions : List Record)
    (mission : Record) (r : AssignmentRecommendation)
    (hm : find_mission missions project_id = some mission)
    (hr : recommend_assignment project_id pilots drones missions = Except.ok r) :
    ∃ eligible,
      eligible_pilots_loop missions (Record.getD mission "required_skills")
          (Record.getD mission "required_certs") (Record.getD mission "location")
          (Record.getD mission "start_date") (Record.getD mission "end_date") pilots
        = Except.ok eligible
      ∧ r = ⟨eligible.head?,
             (filter_drones drones (some (skill_to_capability (Record.getD mission "required_skills")))
               (some (Record.getD mission "location")) true).head?,
             (if eligible.isEmpty then [no_pilot_msg] else [])
               ++ (if (filter_drones drones (some (skill_to_capability (Record.getD mission "required_skills")))
                     (some (Record.getD mission "location")) true).isEmpty then [no_drone_msg] else [])⟩ := by
  unfold recommend_assignment at hr
  rw [hm] at hr
  dsimp only at hr
  cases hl : eligible_pilots_loop missions (Record.getD mission "required_skills")
      (Record.getD mission "required_certs") (Record.getD mission "location")
      (Record.getD mission "start_date") (Record.getD mission "end_date") pilots with
  | error e =>
    rw [hl] at hr
    cases hr
  | ok l =>
    rw [hl] at hr
    dsimp only at hr
    cases hr
    exact ⟨l, rfl, rfl⟩

/-- C1: with the mission found, the recommender's pilot choice is drawn
from an eligible list whose membership is exactly the spec's eligibility
condition: Available status, matching location, required skill and cert in
the pilot's sets (all case-insensitive), and no non-empty assignment to an
existing mission whose dates overlap the candidate mission's. -/
theorem recommend_pilot_eligibility_iff (project_id : String) (pilots drones missions : List Record)
    (mission : Record) (r : AssignmentRecommendation)
    (hm : find_mission missions project_id = some mission)
    (hr : recommend_assignment project_id pilots drones missions = Except.ok r) :
    ∃ eligible,
      eligible_pilots_loop missions (Record.getD mission "required_skills")
          (Record.getD mission "required_certs") (Record.getD mission "location")
          (Record.getD mission "start_date") (Record.getD mission "end_date") pilots
        = Except.ok eligible
      ∧ r.pilot = eligible.head?
      ∧ (∀ p, p ∈ eligible
          ↔ p ∈ pilots ∧ pilot_eligible_spec missions (Record.getD mission "required_skills")
              (Record.getD mission "required_certs") (Record.getD mission "location")
              (Record.getD mission "start_date") (Record.getD mission "end_date") p) := by
  obtain ⟨l, hl, hre⟩ := recommend_ok_inv project_id pilots drones missions mission r hm hr
  refine ⟨l, hl, ?_, ?_⟩
  · rw [hre]
  · exact eligible_loop_ok_mem missions (Record.getD mission "required_skills")
      (Record.getD mission "required_certs") (Record.getD mission "location")
      (Record.getD mission "start_date") (Record.getD mission "end_date") pilots l hl

/-- Witness for C1 at a concrete scenario: two eligible pilots, mission
found, all hypotheses discharged by evaluation. -/
theorem recommend_pilot_eligibility_iff_witness :
    ∃ eligible,
      eligible_pilots_loop [mission1, mission2] (Record.getD mission1 "required_skills")
          (Record.getD mission1 "required_certs") (Record.getD mission1 "location")
          (Record.getD mission1 "start_date") (Record.getD mission1 "end_date") [pilotA, pilotB]
        = Except.ok eligible
      ∧ (AssignmentRecommendation.mk (some pilotA) (some droneA) []).pilot = eligible.head?
      ∧ (∀ p, p ∈ eligible
          ↔ p ∈ [pilotA, pilotB] ∧ pilot_eligible_spec [mission1, mission2]
              (Record.getD mission1 "required_skills") (Record.getD mission1 "required_certs")
              (Record.getD mission1 "location") (Record.getD mission1 "start_date")
              (Record.getD mission1 "end_date") p) :=
  recommend_pilot_eligibility_iff "PRJ001" [pilotA, pilotB] [droneA] [mission1, mission2]
    mission1 ⟨some pilotA, some droneA, []⟩ rfl rfl

/-- C2: with the mission found, the returned pilot is the FIRST pilot in
input order accepted by the eligibility test and the returned drone is the
FIRST drone in input order passing the availability filter for the derived
capability and mission location; the recommendation is deterministic in
its inputs. -/
theorem recommend_first_match_policy (project_id : String) (pilots drones missions : List Record)
    (mission : Record) (r : AssignmentRecommendation)
    (hm : find_mission missions project_id = some mission)
    (hr : recommend_assignment project_id pilots drones missions = Except.ok r) :
    r.pilot = List.find? (elig_b missions (Record.getD mission "required_skills")
        (Record.getD mission "required_certs") (Record.getD mission "location")
        (Record.getD mission "start_date") (Record.getD mission "end_date")) pilots
    ∧ r.drone = List.find? (drone_passes (some (skill_to_capability (Record.getD mission "required_skills")))
        (some (Record.getD mission "location")) true) drones
    ∧ recommend_assignment project_id pilots drones missions
        = recommend_assignment project_id pilots drones missions := by
  obtain ⟨l, hl, hre⟩ := recommend_ok_inv project_id pilots drones missions mission r hm hr
  refine ⟨?_, ?_, rfl⟩
  · rw [hre]
    dsimp only
    rw [eligible_loop_ok_filter missions (Record.getD mission "required_skills")
      (Record.getD mission "required_certs") (Record.getD mission "location")
      (Record.getD mission "start_date") (Record.getD mission "end_date") pilots l hl]
    exact List.filter_head? _ _
  · rw [hre]
    dsimp only
    unfold filter_drones
    exact List.filter_head? _ _

/-- Witness for C2: of the two eligible pilots for the urgent Mumbai
mission, the one listed first is returned. -/
theorem recommend_first_match_policy_witness :
    (AssignmentRecommendation.mk (some pilotA) (some droneA) []).pilot
      = List.find? (elig_b [mission1, mission2] (Record.getD mission1 "required_skills")
          (Record.getD mission1 "required_certs") (Record.getD mission1 "location")
          (Record.getD mission1 "start_date") (Record.getD mission1 "end_date")) [pilotA, pilotB]
    ∧ (AssignmentRecommendation.mk (some pilotA) (some droneA) []).drone
      = List.find? (drone_passes (some (skill_to_capability (Record.getD mission1 "required_skills")))
          (some (Record.getD mission1 "location")) true) [droneA]
    ∧ recommend_assignment "PRJ001" [pilotA, pilotB] [droneA] [mission1, mission2]
        = recommend_assignment "PRJ001" [pilotA, pilotB] [droneA] [mission1, mission2] :=
  recommend_first_match_policy "PRJ001" [pilotA, pilotB] [droneA] [mission1, mission2]
    mission1 ⟨some pilotA, some droneA, []⟩ rfl rfl

/-- C10: with the mission found, the pilot is absent iff the pilot issue
message appears, the drone is absent iff the drone issue message appears,
and the issue list is empty iff both a pilot and a drone are returned. -/
theorem recommend_issue_iff_missing (project_id : String) (pilots drones missions : List Record)
    (mission : Record) (r : AssignmentRecommendation)
    (hm : find_mission missions project_id = some mission)
    (hr : recommend_assignment project_id pilots drones missions = Except.ok r) :
    (r.pilot = none ↔ no_pilot_msg ∈ r.issues)
    ∧ (r.drone = none ↔ no_drone_msg ∈ r.issues)
    ∧ (r.issues = [] ↔ (r.pilot.isSome = true ∧ r.drone.isSome = true)) := by
  obtain ⟨l, hl, hre⟩ := recommend_ok_inv project_id pilots drones missions mission r hm hr
  have hne : no_pilot_msg ≠ no_drone_msg := by decide
  rw [hre]
  dsimp only
  cases l with
  | nil =>
    cases hld : filter_drones drones (some (skill_to_capability (Record.getD mission "required_skills")))
        (some (Record.getD mission "location")) true with
    | nil => simp [hne, Ne.symm hne]
    | cons d ds => simp [hne, Ne.symm hne]
  | cons e es =>
    cases hld : filter_drones drones (some (skill_to_capability (Record.getD mission "required_skills")))
        (some (Record.getD mission "location")) true with
    | nil => simp [hne, Ne.symm hne]
    | cons d ds => simp

/-- Witness for C10: pilot found but no drone available, so exactly the
drone issue message appears. -/
theorem recommend_issue_iff_missing_witness :
    ((AssignmentRecommendation.mk (some pilotA) none [no_drone_msg]).pilot = none
      ↔ no_pilot_msg ∈ (AssignmentRecommendation.mk (some pilotA) none [no_drone_msg]).issues)
    ∧ ((AssignmentRecommendation.mk (some pilotA) none [no_drone_msg]).drone = none
      ↔ no_drone_msg ∈ (AssignmentRecommendation.mk (some pilotA) none [no_drone_msg]).issues)
    ∧ ((AssignmentRecommendation.mk (some pilotA) none [no_drone_msg]).issues = []
      ↔ ((AssignmentRecommendation.mk (some pilotA) none [no_drone_msg]).pilot.isSome = true
          ∧ (AssignmentRecommendation.mk (some pilotA) none [no_drone_msg]).drone.isSome = true)) :=
  recommend_issue_iff_missing "PRJ001" [pilotA, pilotB] [] [mission1, mission2]
    mission1 ⟨some pilotA, none, [no_drone_msg]⟩ rfl rfl

/-- C8: the empty-assignment sentinel spellings — empty string, hyphen,
en-dash, and the mis-encoded en-dash — are all recognized, and an entity
whose `current_assignment` is a sentinel (after stripping) gets no
assignment-based conflict line from any detector phase, and no
temporal-conflict exclusion in the recommender (its eligibility is exactly
the four static checks, independent of missions and dates). -/
theorem empty_assignment_sentinels_uniform
    (a : Option String) (ha : is_empty_assignment a = true)
    (p d : Record)
    (hp : Record.get p "current_assignment" = a)
    (hd : Record.get d "current_assignment" = a)
    (entries dmap : List (String × Record)) (missions : List Record)
    (rs rc loc st en : String) :
    is_empty_assignment (some "") = true
    ∧ is_empty_assignment (some "-") = true
    ∧ is_empty_assignment (some "–") = true
    ∧ is_empty_assignment (some "â€–") = true
    ∧ pilot_checks entries p = []
    ∧ pilot_overlap entries missions p = Except.ok []
    ∧ coloc_check dmap p = []
    ∧ drone_checks entries d = []
    ∧ (pilot_eligible missions rs rc loc st en p = Except.ok true
        ↔ (normalize_text (Record.getD p "status") = "available"
          ∧ normalize_text (Record.getD p "location") = normalize_text loc
          ∧ normalize_text rs ∈ (split_list (Record.getD p "skills")).map pyLower
          ∧ normalize_text rc ∈ (split_list (Record.getD p "certifications")).map pyLower)) := by
  refine ⟨rfl, rfl, rfl, rfl, ?_, ?_, ?_, ?_, ?_⟩
  · simp [pilot_checks, hp, ha]
  · simp [pilot_overlap, hp, ha]
  · simp [coloc_check, hp, ha]
  · simp [drone_checks, hd, ha]
  · rw [pilot_eligible_ok_true_iff]
    unfold pilot_eligible_spec
    rw [hp]
    simp [ha]

/-- Witness for C8 at the hyphen sentinel with concrete records. -/
theorem empty_assignment_sentinels_uniform_witness :
    is_empty_assignment (some "") = true
    ∧ is_empty_assignment (some "-") = true
    ∧ is_empty_assignment (some "–") = true
    ∧ is_empty_assignment (some "â€–") = true
    ∧ pilot_checks [] pilotA = []
    ∧ pilot_overlap [] [mission1, mission2] pilotA = Except.ok []
    ∧ coloc_check [] pilotA = []
    ∧ drone_checks [] droneA = []
    ∧ (pilot_eligible [mission1, mission2] "Mapping" "DGCA" "Mumbai" "2024-01-01" "2024-01-10" pilotA
          = Except.ok true
        ↔ (normalize_text (Record.getD pilotA "status") = "available"
          ∧ normalize_text (Record.getD pilotA "location") = normalize_text "Mumbai"
          ∧ normalize_text "Mapping" ∈ (split_list (Record.getD pilotA "skills")).map pyLower
          ∧ normalize_text "DGCA" ∈ (split_list (Record.getD pilotA "certifications")).map pyLower)) :=
  empty_assignment_sentinels_uniform (some "-") rfl pilotA droneA rfl rfl [] [] [mission1, mission2]
    "Mapping" "DGCA" "Mumbai" "2024-01-01" "2024-01-10"

/-- The inner pilot scan only returns pilots of its input list. -/
theorem scan_pilots_mem (lm : Record) :
    ∀ (ps : List Record) (p : Record), scan_pilots lm ps = Except.ok (some p) → p ∈ ps := by
  intro ps
  induction ps with
  | nil =>
    intro p h
    simp only [scan_pilots] at h
    exact absurd h (by simp)
  | cons q qs ih =>
    intro p h
    simp only [scan_pilots] at h
    cases hk : Record.getE lm "project_id" with
    | error e =>
      rw [hk] at h
      cases h
    | ok k =>
      rw [hk] at h
      dsimp only at h
      by_cases hq : (Record.get q "current_assignment" == some k) = true
      · rw [if_pos hq] at h
        cases h
        exact List.mem_cons_self _ _
      · rw [if_neg hq] at h
        exact List.mem_cons_of_mem _ (ih p h)

/-- A successful inner scan returns the head of the matching-pilot
filter. -/
theorem scan_pilots_filter_head (lm : Record) :
    ∀ (ps : List Record) (r : Option Record), scan_pilots lm ps = Except.ok r →
      (ps.filter (fun q => Record.get q "current_assignment" == Record.get lm "project_id")).head? = r := by
  intro ps
  induction ps with
  | nil =>
    intro r h
    simp only [scan_pilots] at h
    cases h
    rfl
  | cons q qs ih =>
    intro r h
    simp only [scan_pilots] at h
    cases hk : Record.getE lm "project_id" with
    | error e =>
      rw [hk] at h
      cases h
    | ok k =>
      rw [hk] at h
      dsimp only at h
      have hklm : Record.get lm "project_id" = some k := by
        unfold Record.getE at hk
        cases hg : Record.get lm "project_id" with
        | none =>
          rw [hg] at hk
          cases hk
        | some v =>
          rw [hg] at hk
          cases hk
          rfl
      simp only [hklm, List.filter_cons]
      by_cases hq : (Record.get q "current_assignment" == some k) = true
      · rw [if_pos hq] at h
        cases h
        rw [if_pos hq]
        rfl
      · rw [if_neg hq] at h
        rw [if_neg hq]
        have ih2 := ih r h
        simp only [hklm] at ih2
        exact ih2

/-- A successful candidate search returns the head of the mission-major
flattening of per-mission matching-pilot filters. -/
theorem find_candidate_flatten (pilots : List Record) :
    ∀ (lms : List Record) (c : Option Record), find_candidate pilots lms = Except.ok c →
      c = (((lms.map (fun lm =>
          pilots.filter (fun q => Record.get q "current_assignment" == Record.get lm "project_id"))).flatten).head?) := by
  intro lms
  induction lms with
  | nil =>
    intro c h
    simp only [find_candidate] at h
    cases h
    rfl
  | cons lm rest ih =>
    intro c h
    simp only [find_candidate] at h
    cases hs : scan_pilots lm pilots with
    | error e =>
      rw [hs] at h
      cases h
    | ok r =>
      rw [hs] at h
      have hfh := scan_pilots_filter_head lm pilots r hs
      cases r with
      | some p =>
        dsimp only at h
        cases h
        simp only [List.map_cons, List.flatten_cons]
        cases hfl : pilots.filter (fun q => Record.get q "current_assignment" == Record.get lm "project_id") with
        | nil =>
          rw [hfl] at hfh
          cases hfh
        | cons x t =>
          rw [hfl] at hfh
          cases hfh
          rfl
      | none =>
        dsimp only at h
        have hrec := ih c h
        simp only [List.map_cons, List.flatten_cons]
        cases hfl : pilots.filter (fun q => Record.get q "current_assignment" == Record.get lm "project_id") with
        | nil =>
          rw [List.nil_append]
          exact hrec
        | cons x t =>
          rw [hfl] at hfh
          cases hfh

/-- A successful candidate search returns a pilot of the input list. -/
theorem find_candidate_mem (pilots : List Record) :
    ∀ (lms : List Record) (p : Record), find_candidate pilots lms = Except.ok (some p) → p ∈ pilots := by
  intro lms
  induction lms with
  | nil =>
    intro p h
    simp only [find_candidate] at h
    exact absurd h (by simp)
  | cons lm rest ih =>
    intro p h
    simp only [find_candidate] at h
    cases hs : scan_pilots lm pilots with
    | error e =>
      rw [hs] at h
      cases h
    | ok r =>
      rw [hs] at h
      cases r with
      | some q =>
        dsimp only at h
        cases h
        exact scan_pilots_mem lm pilots p hs
      | none =>
        dsimp only at h
        exact ih p h

/-- Every line a planner step emits has one of the planner shapes. -/
theorem plan_step_shape (missions pilots drones : List Record) (m : Record) (c : List String)
    (h : plan_step missions pilots drones m = Except.ok c) :
    ∀ s ∈ c, planner_line_shape pilots s := by
  unfold plan_step at h
  cases hpid : Record.getE m "project_id" with
  | error e =>
    rw [hpid] at h
    cases h
  | ok pid =>
    rw [hpid] at h
    dsimp only at h
    cases hrec : recommend_assignment pid pilots drones missions with
    | error e =>
      rw [hrec] at h
      cases h
    | ok r =>
      rw [hrec] at h
      dsimp only at h
      by_cases hcl : (truthy_rec r.pilot && truthy_rec r.drone && r.issues.isEmpty) = true
      · rw [if_pos hcl] at h
        cases h
        intro s hs
        exact absurd hs (List.not_mem_nil s)
      · rw [if_neg hcl] at h
        cases hfc : find_candidate pilots (lower_missions missions) with
        | error e =>
          rw [hfc] at h
          cases h
        | ok cand =>
          rw [hfc] at h
          cases cand with
          | some candidate =>
            dsimp only at h
            cases h
            intro s hs
            have hss := List.mem_singleton.mp hs
            subst hss
            right
            left
            exact ⟨candidate, find_candidate_mem pilots (lower_missions missions) candidate hfc, pid, rfl⟩
          | none =>
            dsimp only at h
            cases h
            intro s hs
            have hss := List.mem_singleton.mp hs
            subst hss
            right
            right
            exact ⟨pid, rfl⟩

/-- Lines accumulated by the planner loop keep the planner shapes. -/
theorem plan_loop_shape (missions pilots drones : List Record) :
    ∀ (l : List Record) (acc out : List String),
      plan_loop missions pilots drones l acc = Except.ok out →
      (∀ s ∈ acc, planner_line_shape pilots s) →
      ∀ s ∈ out, planner_line_shape pilots s := by
  intro l
  induction l with
  | nil =>
    intro acc out h hacc
    simp only [plan_loop] at h
    cases h
    exact hacc
  | cons m rest ih =>
    intro acc out h hacc
    simp only [plan_loop] at h
    cases hstep : plan_step missions pilots drones m with
    | error e =>
      rw [hstep] at h
      cases h
    | ok c =>
      rw [hstep] at h
      dsimp only at h
      refine ih (acc ++ c) out h ?_
      intro s hs
      rcases List.mem_append.mp hs with h1 | h2
      · exact hacc s h1
      · exact plan_step_shape missions pilots drones m c hstep s h2

/-- C9: every planner output line is the no-urgent notice, a pilot
reassignment proposal, or the no-reassignable-pilot notice (never a drone
proposal); a successful candidate search returns the FIRST pilot in
mission-major order (lower-priority missions in listing order, pilots in
listing order inside each) assigned to that mission; and a step for an
uncovered urgent mission emits exactly the message determined by that
candidate search. -/
theorem urgent_plan_pilot_first_match (missions pilots drones : List Record) (out : List String)
    (h : urgent_reassignment_plan missions pilots drones = Except.ok out) :
    (∀ s ∈ out, planner_line_shape pilots s)
    ∧ (∀ c, find_candidate pilots (lower_missions missions) = Except.ok c →
        c = (((lower_missions missions).map (fun lm =>
            pilots.filter (fun q => Record.get q "current_assignment" == Record.get lm "project_id"))).flatten).head?)
    ∧ (∀ m pid r, Record.getE m "project_id" = Except.ok pid →
        recommend_assignment pid pilots drones missions = Except.ok r →
        (truthy_rec r.pilot && truthy_rec r.drone && r.issues.isEmpty) = false →
        plan_step missions pilots drones m
          = (match find_candidate pilots (lower_missions missions) with
             | Except.error e => Except.error e
             | Except.ok (some candidate) => Except.ok [reassign_msg candidate pid]
             | Except.ok none => Except.ok [no_reassign_msg pid])) := by
  refine ⟨?_, ?_, ?_⟩
  · unfold urgent_reassignment_plan at h
    dsimp only at h
    by_cases hu : (urgent_missions missions).isEmpty = true
    · rw [if_pos hu] at h
      cases h
      intro s hs
      have hss := List.mem_singleton.mp hs
      subst hss
      left
      rfl
    · rw [if_neg hu] at h
      exact plan_loop_shape missions pilots drones (urgent_missions missions) [] out h
        (fun s hs => absurd hs (List.not_mem_nil s))
  · intro c hc
    exact find_candidate_flatten pilots (lower_missions missions) c hc
  · intro m pid r hpid hrec hcl
    unfold plan_step
    rw [hpid]
    dsimp only
    rw [hrec]
    dsimp only
    rw [hcl]
    rfl

/-- Witness for C9: with one uncoverable urgent mission and one
standard-priority mission holding an assigned pilot, the planner proposes
exactly that pilot, and the candidate search equals the mission-major
first match. -/
theorem urgent_plan_pilot_first_match_witness :
    planner_line_shape [pilotC] "Consider reassigning pilot Cam from PRJ002 to urgent mission PRJ001."
    ∧ some pilotC = (((lower_missions [mission1, mission2]).map (fun lm =>
        [pilotC].filter (fun q => Record.get q "current_assignment" == Record.get lm "project_id"))).flatten).head? := by
  have h := urgent_plan_pilot_first_match [mission1, mission2] [pilotC] []
    ["Consider reassigning pilot Cam from PRJ002 to urgent mission PRJ001."] rfl
  exact ⟨h.1 _ (by simp), h.2.1 (some pilotC) rfl⟩

end DroneOps
